import Mathlib

/-!
Portfolio accounting engine — verification of the spec against the source.

Shallow embedding of the portfolio accounting and analysis tools of the
repository (src/unnamed/part_002 and src/src/mastra/tools/index.ts).
Money amounts and share quantities are modelled as rationals (ℚ), the
idealised decimal arithmetic the spec prescribes.  A JavaScript division
whose denominator may be zero (where JS produces NaN or ±Infinity) is
modelled by `jsDiv : ℚ → ℚ → Option ℚ`, with `none` standing for the
non-finite result; divisions that every statement guards with a nonzero
denominator are plain ℚ division.
-/

namespace Engine

/-- One recorded purchase (lot): quantity of shares and per-unit price.
Mirrors the `{ quantity, price }` entries of a holding's `purchases` array. -/
structure Purchase where
  quantity : ℚ
  price : ℚ
deriving Repr, DecidableEq

/-- A stored holding as kept in working memory by `addStockTool`
(src/unnamed/part_002, lines 1389–1452): symbol, total quantity, the
`purchasePrice` field, and the optional `purchases` ledger (`none`
models a JS object without the field). -/
structure Holding where
  symbol : String
  quantity : ℚ
  purchasePrice : ℚ
  purchases : Option (List Purchase)
deriving Repr, DecidableEq

/-- JS division that records a zero denominator: `none` stands for the
NaN / ±Infinity a JavaScript `a / b` produces when `b == 0` (with finite
`a`); otherwise the exact quotient. -/
def jsDiv (a b : ℚ) : Option ℚ :=
  if b = 0 then none else some (a / b)

/-- JS `Math.round`: round half up. -/
def jsRound (q : ℚ) : ℤ := ⌊q + 1/2⌋

/-- ASCII uppercase of one character, as JS `toUpperCase` acts on the
ticker-symbol alphabet. -/
def jsUpperChar (c : Char) : Char :=
  if 'a' ≤ c ∧ c ≤ 'z' then Char.ofNat (c.toNat - 32) else c

/-- JS `symbol.toUpperCase()`, modelled on ASCII strings (ticker symbols). -/
def jsToUpper (s : String) : String := ⟨s.data.map jsUpperChar⟩

/-! Section: addStockTool (src/unnamed/part_002, lines 1389–1452) -/

/-- The repeat-buy branch of `addStockTool` (lines 1418–1430): quantity is
summed, `purchasePrice` is copied unchanged, and the new `{quantity, price}`
pair is appended to the `purchases` ledger; a missing ledger is first seeded
from the stored quantity and purchase price
(`existing.purchases || [{ quantity: existing.quantity, price: existing.purchasePrice }]`). -/
def addLotToHolding (h : Holding) (quantity price : ℚ) : Holding :=
  { symbol := h.symbol
    quantity := h.quantity + quantity
    purchasePrice := h.purchasePrice
    purchases := some ((h.purchases.getD [⟨h.quantity, h.purchasePrice⟩]) ++ [⟨quantity, price⟩]) }

/-- Core of `addStockTool.execute` after the symbol has been upper-cased:
`findIndex` locates the first holding with the symbol and that entry is
replaced by the repeat-buy update; if no entry matches, a fresh holding
`{ symbol, quantity, purchasePrice: price, purchases: [{quantity, price}] }`
is appended.  No validation of quantity or price is performed. -/
def addStockUpper (portfolio : List Holding) (symbolUpper : String) (quantity price : ℚ) :
    List Holding :=
  match portfolio with
  | [] => [{ symbol := symbolUpper, quantity := quantity, purchasePrice := price,
             purchases := some [⟨quantity, price⟩] }]
  | h :: rest =>
      if h.symbol == symbolUpper then
        addLotToHolding h quantity price :: rest
      else
        h :: addStockUpper rest symbolUpper quantity price

/-- Tool entry `addStockTool.execute`: upper-cases the symbol, then updates or appends. -/
def addStock (portfolio : List Holding) (symbol : String) (quantity price : ℚ) :
    List Holding :=
  addStockUpper portfolio (jsToUpper symbol) quantity price

/-! Section: removeStockTool (src/unnamed/part_002, lines 1455–1506) -/

/-- Replace the first holding whose symbol matches by `f` of it. -/
def updateFirst (portfolio : List Holding) (symbolUpper : String) (f : Holding → Holding) :
    List Holding :=
  match portfolio with
  | [] => []
  | h :: rest =>
      if h.symbol == symbolUpper then f h :: rest
      else h :: updateFirst rest symbolUpper f

/-- Core of `removeStockTool.execute` after upper-casing.  `none` result
models the `{ success: false }` "not found" reply.  When found:
`!quantity || existing.quantity <= quantity` (a missing or zero quantity is
falsy in JS) removes every holding of the symbol via `filter`; otherwise the
first matching holding's `quantity` field is decremented, its other fields
(including the `purchases` ledger) spread through unchanged. -/
def removeStockUpper (portfolio : List Holding) (symbolUpper : String) (quantity : Option ℚ) :
    Option (List Holding) :=
  match portfolio.find? (fun h => h.symbol == symbolUpper) with
  | none => none
  | some existing =>
      if quantity.getD 0 = 0 ∨ existing.quantity ≤ quantity.getD 0 then
        some (portfolio.filter (fun h => ¬ (h.symbol == symbolUpper)))
      else
        some (updateFirst portfolio symbolUpper
          (fun h => { h with quantity := h.quantity - quantity.getD 0 }))

/-- Tool entry `removeStockTool.execute`: upper-cases the symbol, then removes/reduces. -/
def removeStock (portfolio : List Holding) (symbol : String) (quantity : Option ℚ) :
    Option (List Holding) :=
  removeStockUpper portfolio (jsToUpper symbol) quantity

/-- Sum of the stored `quantity` fields across a portfolio. -/
def portfolioQuantity (portfolio : List Holding) : ℚ :=
  (portfolio.map (·.quantity)).sum

/-! Section: portfolioProfitCalculatorTool (src/unnamed/part_002, lines 618–724) -/

/-- Input holding of the profit calculator: `{ symbol, quantity, purchasePrice }`. -/
structure BasicHolding where
  symbol : String
  quantity : ℚ
  purchasePrice : ℚ
deriving Repr, DecidableEq

/-- Per-holding output of the profit calculator. `profitLossPercent` is
`Option ℚ` through `jsDiv`: `none` is the NaN the JS produces when
`totalCost == 0`. -/
structure ProfitHolding where
  symbol : String
  quantity : ℚ
  purchasePrice : ℚ
  currentPrice : ℚ
  totalCost : ℚ
  totalValue : ℚ
  profitLoss : ℚ
  profitLossPercent : Option ℚ
deriving Repr, DecidableEq

/-- One arm of the `Promise.all` map in `portfolioProfitCalculatorTool`
(lines 656–690).  `quote = none` models the fetch throwing (the `catch`
branch, which hard-codes `profitLoss: 0, profitLossPercent: 0`);
`quote = some c` models a reply with `data.c = c`, where
`data.c || holding.purchasePrice` makes a zero (falsy) price fall back to
the stored purchase price. -/
def enrichProfit (h : BasicHolding) (quote : Option ℚ) : ProfitHolding :=
  match quote with
  | none =>
      { symbol := h.symbol, quantity := h.quantity, purchasePrice := h.purchasePrice
        currentPrice := h.purchasePrice
        totalCost := h.purchasePrice * h.quantity
        totalValue := h.purchasePrice * h.quantity
        profitLoss := 0, profitLossPercent := some 0 }
  | some c =>
      let currentPrice := if c = 0 then h.purchasePrice else c
      let totalCost := h.purchasePrice * h.quantity
      let totalValue := currentPrice * h.quantity
      let profitLoss := totalValue - totalCost
      { symbol := h.symbol, quantity := h.quantity, purchasePrice := h.purchasePrice
        currentPrice := currentPrice, totalCost := totalCost, totalValue := totalValue
        profitLoss := profitLoss
        profitLossPercent := (jsDiv profitLoss totalCost).map (· * 100) }

/-- Aggregate `totalCost` of the profit calculator (line 693). -/
def profitTotalCost (holdings : List ProfitHolding) : ℚ :=
  (holdings.map (·.totalCost)).sum

/-- Aggregate `totalValue` of the profit calculator (line 694). -/
def profitTotalValue (holdings : List ProfitHolding) : ℚ :=
  (holdings.map (·.totalValue)).sum

/-- Aggregate `totalProfit` (line 695). -/
def profitTotal (holdings : List ProfitHolding) : ℚ :=
  profitTotalValue holdings - profitTotalCost holdings

/-- Aggregate `totalProfitPercent = (totalProfit / totalCost) * 100`
(line 696) — unguarded JS division, `none` when `totalCost == 0`
(e.g. the empty portfolio, where JS yields `0/0 = NaN`). -/
def profitTotalPercent (holdings : List ProfitHolding) : Option ℚ :=
  (jsDiv (profitTotal holdings) (profitTotalCost holdings)).map (· * 100)

/-! Section: portfolioAdvisorTool (src/unnamed/part_002, lines 1673–1815) -/

/-- Per-holding output of the advisor's enrichment (lines 1750–1758). -/
structure AdvisorHolding where
  symbol : String
  quantity : ℚ
  avgCost : ℚ
  currentPrice : ℚ
  totalValue : ℚ
  gainLoss : ℚ
  gainLossPercent : Option ℚ
deriving Repr, DecidableEq

/-- Average cost of a holding (lines 1737–1743): starts at
`holding.purchasePrice` and, when a non-empty `purchases` ledger exists, is
replaced by `Σ(price·quantity) / Σ(quantity)` over the ledger.  Division is
exact ℚ division; the JS NaN case `Σ(quantity) == 0` is excluded by
hypothesis in every statement that touches it. -/
def advisorAvgCost (h : Holding) : ℚ :=
  match h.purchases with
  | some ps =>
      if 0 < ps.length then
        ((ps.map (fun p => p.price * p.quantity)).sum) / ((ps.map (·.quantity)).sum)
      else h.purchasePrice
  | none => h.purchasePrice

/-- One arm of the `Promise.all` map in `portfolioAdvisorTool`
(lines 1723–1759).  `currentPrice` starts at `holding.purchasePrice` and is
replaced by the quoted `data.c` only when the fetch succeeds and
`data.c && data.c > 0`; `quote = none` models a missing key or a failed
fetch. -/
def enrichAdvisor (h : Holding) (quote : Option ℚ) : AdvisorHolding :=
  let currentPrice : ℚ :=
    match quote with
    | some c => if 0 < c then c else h.purchasePrice
    | none => h.purchasePrice
  let avgCost := advisorAvgCost h
  let totalValue := currentPrice * h.quantity
  let totalCost := avgCost * h.quantity
  let gainLoss := totalValue - totalCost
  { symbol := h.symbol, quantity := h.quantity, avgCost := avgCost
    currentPrice := currentPrice, totalValue := totalValue, gainLoss := gainLoss
    gainLossPercent := (jsDiv gainLoss totalCost).map (· * 100) }

/-- Aggregate `totalValue` of the advisor (line 1762). -/
def advisorTotalValue (holdings : List AdvisorHolding) : ℚ :=
  (holdings.map (·.totalValue)).sum

/-- Aggregate `totalCost = Σ (avgCost * quantity)` of the advisor (line 1763). -/
def advisorTotalCost (holdings : List AdvisorHolding) : ℚ :=
  (holdings.map (fun h => h.avgCost * h.quantity)).sum

/-- Aggregate `totalGain` (line 1764). -/
def advisorTotalGain (holdings : List AdvisorHolding) : ℚ :=
  advisorTotalValue holdings - advisorTotalCost holdings

/-- Aggregate `totalGainPercent = (totalGain / totalCost) * 100` (line 1765)
— unguarded JS division, `none` models the NaN/Infinity when `totalCost == 0`. -/
def advisorTotalGainPercent (holdings : List AdvisorHolding) : Option ℚ :=
  (jsDiv (advisorTotalGain holdings) (advisorTotalCost holdings)).map (· * 100)

/-- Score `diversificationScore = Math.min(numHoldings * 20, 100)` (line 1768). -/
def diversificationScore (holdings : List AdvisorHolding) : ℚ :=
  min (holdings.length * 20) 100

/-- One holding's concentration share
`(h.totalValue / totalValue) * 100` (line 1770).  Statements using it
assume a positive portfolio total, where ℚ division agrees with JS. -/
def concentrationShare (holdings : List AdvisorHolding) (h : AdvisorHolding) : ℚ :=
  h.totalValue / advisorTotalValue holdings * 100

/-- Maximum share `maxConcentration = Math.max(...concentrationRisk)` (line 1771).
`Math.max` of the empty list is `-Infinity` in JS; the claims only concern
non-empty portfolios, where `maximum?` is defined and the `getD 0` default
is unreachable. -/
def maxConcentration (holdings : List AdvisorHolding) : ℚ :=
  ((holdings.map (concentrationShare holdings)).max?).getD 0

/-- Score `riskScore = Math.min(maxConcentration * 2, 100)` (line 1772). -/
def riskScore (holdings : List AdvisorHolding) : ℚ :=
  min (maxConcentration holdings * 2) 100

/-- Rating `overallRating` (lines 1797–1799): `EXCELLENT` if
`diversificationScore > 70 && riskScore < 50`, else `GOOD` if
`diversificationScore > 50 && riskScore < 70`, else `NEEDS IMPROVEMENT`,
evaluated in that fixed order on the unrounded scores. -/
def overallRating (holdings : List AdvisorHolding) : String :=
  if 70 < diversificationScore holdings ∧ riskScore holdings < 50 then "EXCELLENT"
  else if 50 < diversificationScore holdings ∧ riskScore holdings < 70 then "GOOD"
  else "NEEDS IMPROVEMENT"

/-! Section: rebalancingAnalyzerTool (src/src/mastra/tools/index.ts, lines 543–617) -/

/-- Input holding of the rebalancing analyzer:
`{ symbol, quantity, currentPrice, totalValue }`. -/
structure RebalHolding where
  symbol : String
  quantity : ℚ
  currentPrice : ℚ
  totalValue : ℚ
deriving Repr, DecidableEq

/-- A rebalancing suggestion `{ action, symbol, shares }`; the `reasoning`
string of the source is presentation (toFixed formatting) and not modelled. -/
structure Suggestion where
  action : String
  symbol : String
  shares : ℤ
deriving Repr, DecidableEq

/-- Portfolio total `Σ totalValue` (line 567). -/
def rebalTotalValue (portfolio : List RebalHolding) : ℚ :=
  (portfolio.map (·.totalValue)).sum

/-- Default target `equalWeight = 100 / numHoldings` (line 578); statements assume a
non-empty portfolio (JS gives Infinity on empty). -/
def equalWeight (portfolio : List RebalHolding) : ℚ :=
  100 / portfolio.length

/-- Target lookup `idealAllocation[holding.symbol] || equalWeight` (lines 576, 585): a
missing entry — and, by JS falsiness, an entry equal to 0 — falls back to
the equal weight. -/
def targetFor (targetAllocation : List (String × ℚ)) (symbol : String)
    (equalWt : ℚ) : ℚ :=
  match targetAllocation.lookup symbol with
  | some x => if x = 0 then equalWt else x
  | none => equalWt

/-- Share `currentAllocation[holding.symbol] = (totalValue / portfolioTotal) * 100`
(lines 570–573).  The source builds a `Record` keyed by symbol and reads it
back per holding; for portfolios with distinct symbols (the only shape the
callers construct, the portfolio being keyed by symbol) that read-back is
exactly this direct share. -/
def currentShare (portfolio : List RebalHolding) (h : RebalHolding) : ℚ :=
  h.totalValue / rebalTotalValue portfolio * 100

/-- One holding's `deviation = Math.abs(current - target)` (line 587). -/
def deviationOf (portfolio : List RebalHolding) (targetAllocation : List (String × ℚ))
    (h : RebalHolding) : ℚ :=
  |currentShare portfolio h - targetFor targetAllocation h.symbol (equalWeight portfolio)|

/-- Accumulated `maxDeviation` (lines 582–589): starts at 0 and is raised over the loop,
i.e. a left fold of `max` over the deviations with initial value 0. -/
def maxDeviation (portfolio : List RebalHolding) (targetAllocation : List (String × ℚ)) : ℚ :=
  (portfolio.map (deviationOf portfolio targetAllocation)).foldl max 0

/-- The suggestion the loop body (lines 591–607) pushes for one holding:
`none` when `deviation ≤ 10`; otherwise `REDUCE` with
`Math.floor((totalValue - totalValue*target/100) / currentPrice)` shares when
overweight, else `INCREASE` with the matching `Math.ceil`. -/
def suggestionFor (portfolio : List RebalHolding) (targetAllocation : List (String × ℚ))
    (h : RebalHolding) : Option Suggestion :=
  let target := targetFor targetAllocation h.symbol (equalWeight portfolio)
  let current := currentShare portfolio h
  let total := rebalTotalValue portfolio
  if 10 < |current - target| then
    if target < current then
      some { action := "REDUCE", symbol := h.symbol
             shares := ⌊(h.totalValue - total * target / 100) / h.currentPrice⌋ }
    else
      some { action := "INCREASE", symbol := h.symbol
             shares := ⌈(total * target / 100 - h.totalValue) / h.currentPrice⌉ }
  else none

/-- The `suggestions` array (lines 581–608): suggestions of the holdings
with `deviation > 10`, in portfolio order. -/
def rebalSuggestions (portfolio : List RebalHolding)
    (targetAllocation : List (String × ℚ)) : List Suggestion :=
  portfolio.filterMap (suggestionFor portfolio targetAllocation)

/-- Verdict `isBalanced = maxDeviation < 10` (line 611). -/
def isBalanced (portfolio : List RebalHolding) (targetAllocation : List (String × ℚ)) : Bool :=
  decide (maxDeviation portfolio targetAllocation < 10)

/-! Section: alertCheckerTool (src/src/mastra/tools/index.ts, lines 777–838) -/

/-- Alert condition: the `z.enum(['above', 'below'])` of the alert schema. -/
inductive AlertCondition where
  | above
  | below
deriving Repr, DecidableEq

/-- A price alert `{ symbol, condition, targetPrice }`. -/
structure Alert where
  symbol : String
  condition : AlertCondition
  targetPrice : ℚ
deriving Repr, DecidableEq

/-- The trigger test (lines 814–816):
`(condition === 'below' && currentPrice < targetPrice) ||
 (condition === 'above' && currentPrice > targetPrice)`. -/
def alertTriggered (a : Alert) (currentPrice : ℚ) : Bool :=
  decide ((a.condition = AlertCondition.below ∧ currentPrice < a.targetPrice) ∨
    (a.condition = AlertCondition.above ∧ currentPrice > a.targetPrice))

/-- Verdict for one alert given its quote (lines 805–827).  `quote = none`
models the fetch throwing (the `catch` branch skips the alert); on a reply,
`currentPrice = data.c || 0` and the alert is only judged when
`currentPrice > 0`; the outer `none` is "no verdict". -/
def alertVerdict (a : Alert) (quote : Option ℚ) : Option Bool :=
  match quote with
  | none => none
  | some c => if 0 < c then some (alertTriggered a c) else none

/-- Output `triggeredAlerts`: the alerts whose verdict is `some true`, in input
order; untriggered and unavailable alerts are omitted (lines 818–826). -/
def triggeredAlerts (alerts : List Alert) (price : String → Option ℚ) : List Alert :=
  alerts.filter (fun a => (alertVerdict a (price a.symbol)).getD false)

/-! Section: benchmarkComparisonTool (src/src/mastra/tools/index.ts, lines 623–673) -/

/-- The fixed S&P 500 return table with its `|| 10.5` fallback
(lines 643–652): `sp500Returns = {1M: 2.1, 3M: 5.5, 6M: 8.2, 1Y: 10.5,
YTD: 12.3}`; every stored value is nonzero (truthy), so the JS `|| 10.5`
fires exactly for keys outside the table. -/
def sp500Return (period : String) : ℚ :=
  if period = "1M" then 21/10
  else if period = "3M" then 11/2
  else if period = "6M" then 41/5
  else if period = "1Y" then 21/2
  else if period = "YTD" then 123/10
  else 21/2

/-- Result of the benchmark comparison; the `Option ℚ` fields are `none`
when the unguarded division by `costBasis` is non-finite in JS. -/
structure BenchmarkResult where
  portfolioReturn : Option ℚ
  sp500Return : ℚ
  outperformance : Option ℚ
deriving Repr, DecidableEq

/-- Tool entry `benchmarkComparisonTool.execute` (lines 637–672):
`portfolioReturn = ((portfolioValue - costBasis) / costBasis) * 100`
(unguarded), `period = timePeriod || '1Y'`, table lookup with fallback, and
`outperformance = portfolioReturn - sp500Return`. -/
def benchmarkComparison (portfolioValue costBasis : ℚ) (timePeriod : Option String) :
    BenchmarkResult :=
  let portfolioReturn := (jsDiv (portfolioValue - costBasis) costBasis).map (· * 100)
  let sp := sp500Return (timePeriod.getD "1Y")
  { portfolioReturn := portfolioReturn
    sp500Return := sp
    outperformance := portfolioReturn.map (· - sp) }

/-! Section: concrete inputs from the spec's scenarios -/

/-- The spec's AAPL holding after both buys: lots `[(10, 271.00), (5, 273.00)]`,
stored quantity 15, `purchasePrice` left at the first lot's price. -/
def demoHolding : Holding :=
  { symbol := "AAPL", quantity := 15, purchasePrice := 271
    purchases := some [⟨10, 271⟩, ⟨5, 273⟩] }

end Engine

namespace Engine

/-! Section: theorems -/

/-- The ticker symbol of the running example is already upper-case. -/
lemma jsToUpper_AAPL : jsToUpper "AAPL" = "AAPL" := by decide

/-- Claim C1: For every holding with a non-empty purchases ledger, the average
cost computed by the engine (`portfolioAdvisorTool`, src/unnamed/part_002
lines 1737–1743) equals the quantity-weighted mean Σ(quantity·price)/Σ(quantity)
over its lots and is invariant under reordering of the lots; on the two-lot
input [(10, 271.00), (5, 273.00)] with quote 274.00 the engine yields
averageCost = 4075/15 (271.6667 at four decimals), totalCost = 4075.00,
totalValue = 4110.00 and profitLoss = 35.00. -/
theorem averageCost_weighted_mean_perm_invariant_concrete :
    (∀ (sym : String) (qf pp pp' : ℚ) (ps ps' : List Purchase),
       ps ≠ [] → ps.Perm ps' →
       advisorAvgCost ⟨sym, qf, pp, some ps⟩
           = (ps.map (fun p => p.price * p.quantity)).sum / (ps.map (·.quantity)).sum ∧
       advisorAvgCost ⟨sym, qf, pp, some ps⟩ = advisorAvgCost ⟨sym, qf, pp', some ps'⟩) ∧
    ((enrichAdvisor demoHolding (some 274)).avgCost = 4075/15 ∧
     jsRound ((enrichAdvisor demoHolding (some 274)).avgCost * 10000) = 2716667 ∧
     advisorTotalCost [enrichAdvisor demoHolding (some 274)] = 4075 ∧
     (enrichAdvisor demoHolding (some 274)).totalValue = 4110 ∧
     (enrichAdvisor demoHolding (some 274)).gainLoss = 35) := by
  constructor
  · intro sym qf pp pp' ps ps' hne hperm
    have hlen : 0 < ps.length := List.length_pos.mpr hne
    have hlen' : 0 < ps'.length := hperm.length_eq ▸ hlen
    refine ⟨by simp [advisorAvgCost, hlen], ?_⟩
    simp only [advisorAvgCost, hlen, hlen', if_pos]
    rw [(hperm.map (fun p => p.price * p.quantity)).sum_eq,
        (hperm.map (·.quantity)).sum_eq]
  · refine ⟨by norm_num [enrichAdvisor, advisorAvgCost, demoHolding],
      by norm_num [enrichAdvisor, advisorAvgCost, demoHolding, jsRound],
      by norm_num [advisorTotalCost, enrichAdvisor, advisorAvgCost, demoHolding],
      by norm_num [enrichAdvisor, advisorAvgCost, demoHolding],
      by norm_num [enrichAdvisor, advisorAvgCost, demoHolding]⟩

/-- Witness for C1: the general part applied to the concrete two-lot ledger
and its swap. -/
theorem averageCost_weighted_mean_witness :
    advisorAvgCost ⟨"AAPL", 15, 271, some [⟨10, 271⟩, ⟨5, 273⟩]⟩
        = (([⟨10, 271⟩, ⟨5, 273⟩] : List Purchase).map
            (fun p => p.price * p.quantity)).sum /
          (([⟨10, 271⟩, ⟨5, 273⟩] : List Purchase).map (·.quantity)).sum ∧
    advisorAvgCost ⟨"AAPL", 15, 271, some [⟨10, 271⟩, ⟨5, 273⟩]⟩
        = advisorAvgCost ⟨"AAPL", 15, 271, some [⟨5, 273⟩, ⟨10, 271⟩]⟩ :=
  averageCost_weighted_mean_perm_invariant_concrete.1 "AAPL" 15 271 271
    [⟨10, 271⟩, ⟨5, 273⟩] [⟨5, 273⟩, ⟨10, 271⟩] (List.cons_ne_nil _ _)
    (List.Perm.swap _ _ _)

/-- Claim C2, counterexample: The claim "a zero or missing quote sets
currentPrice equal to the holding's average cost and produces profitLoss 0"
fails on the advisor: on the two-lot AAPL holding with a zero quote, the
fallback price is the stored `purchasePrice` (271), not the weighted
average cost (4075/15), and the computed gain/loss is −10, not 0. -/
theorem enrich_zero_quote_equals_avgCost_counterexample :
    ¬ ((enrichAdvisor demoHolding (some 0)).currentPrice = advisorAvgCost demoHolding ∧
       (enrichAdvisor demoHolding (some 0)).gainLoss = 0) := by
  norm_num [enrichAdvisor, advisorAvgCost, demoHolding]

/-- Claim C2, amended: Enriching a holding with a zero or missing/failed quote
never throws; in `portfolioAdvisorTool` it sets `currentPrice` to the stored
`purchasePrice` and yields `profitLoss = (purchasePrice − averageCost) ·
quantity`, which is 0 whenever the average cost coincides with
`purchasePrice` (in particular when there is no `purchases` ledger) but not
in general; in `portfolioProfitCalculatorTool`, whose cost basis is
`purchasePrice` itself, the fallback always yields `profitLoss = 0` and
`currentPrice = purchasePrice`. -/
theorem enrich_zero_quote_falls_back_to_purchasePrice :
    (∀ (h : Holding) (quote : Option ℚ),
       (quote = none ∨ ∃ c, quote = some c ∧ c ≤ 0) →
       (enrichAdvisor h quote).currentPrice = h.purchasePrice ∧
       (enrichAdvisor h quote).gainLoss
         = (h.purchasePrice - advisorAvgCost h) * h.quantity ∧
       (h.purchases = none → (enrichAdvisor h quote).gainLoss = 0)) ∧
    (∀ b : BasicHolding,
       (enrichProfit b none).currentPrice = b.purchasePrice ∧
       (enrichProfit b none).profitLoss = 0 ∧
       (enrichProfit b (some 0)).currentPrice = b.purchasePrice ∧
       (enrichProfit b (some 0)).profitLoss = 0) := by
  constructor
  · intro h quote hq
    have hcp : (enrichAdvisor h quote).currentPrice = h.purchasePrice := by
      rcases hq with rfl | ⟨c, rfl, hc⟩
      · rfl
      · simp [enrichAdvisor, not_lt.mpr hc]
    refine ⟨hcp, ?_, ?_⟩
    · have : (enrichAdvisor h quote).gainLoss
          = (enrichAdvisor h quote).currentPrice * h.quantity
            - advisorAvgCost h * h.quantity := rfl
      rw [this, hcp]; ring
    · intro hnone
      have : advisorAvgCost h = h.purchasePrice := by simp [advisorAvgCost, hnone]
      have hgl : (enrichAdvisor h quote).gainLoss
          = (enrichAdvisor h quote).currentPrice * h.quantity
            - advisorAvgCost h * h.quantity := rfl
      rw [hgl, hcp, this]; ring
  · intro b
    refine ⟨rfl, ?_, ?_, ?_⟩
    · simp [enrichProfit]
    · simp [enrichProfit]
    · simp [enrichProfit]

/-- Witness for the amended C2: the two-lot AAPL holding with a zero quote,
and a ledger-free basic holding. -/
theorem enrich_zero_quote_falls_back_witness :
    ((enrichAdvisor demoHolding (some 0)).currentPrice = demoHolding.purchasePrice ∧
     (enrichAdvisor demoHolding (some 0)).gainLoss
       = (demoHolding.purchasePrice - advisorAvgCost demoHolding) * demoHolding.quantity ∧
     (demoHolding.purchases = none → (enrichAdvisor demoHolding (some 0)).gainLoss = 0)) ∧
    ((enrichProfit ⟨"AAPL", 10, 271⟩ none).currentPrice = (271 : ℚ) ∧
     (enrichProfit ⟨"AAPL", 10, 271⟩ none).profitLoss = 0 ∧
     (enrichProfit ⟨"AAPL", 10, 271⟩ (some 0)).currentPrice = (271 : ℚ) ∧
     (enrichProfit ⟨"AAPL", 10, 271⟩ (some 0)).profitLoss = 0) :=
  ⟨enrich_zero_quote_falls_back_to_purchasePrice.1 demoHolding (some 0)
      (Or.inr ⟨0, rfl, le_refl 0⟩),
   enrich_zero_quote_falls_back_to_purchasePrice.2 ⟨"AAPL", 10, 271⟩⟩

/-- Lemma: `updateFirst` rewrites exactly the first matching holding, so a
symbol-preserving update is still found there. -/
lemma updateFirst_find? (p : List Holding) (symU : String) (f : Holding → Holding)
    (ex : Holding) (hf : ∀ h, (f h).symbol = h.symbol)
    (hfind : p.find? (fun h => h.symbol == symU) = some ex) :
    (updateFirst p symU f).find? (fun h => h.symbol == symU) = some (f ex) := by
  induction p with
  | nil => simp at hfind
  | cons h rest ih =>
      by_cases hmatch : (h.symbol == symU) = true
      · simp only [List.find?_cons, hmatch] at hfind
        have hex : h = ex := by injection hfind
        subst hex
        have hfm : ((f h).symbol == symU) = true := by rw [hf h]; exact hmatch
        simp only [updateFirst, if_pos hmatch, List.find?_cons, hfm]
      · have hm' : (h.symbol == symU) = false := by simpa using hmatch
        simp only [List.find?_cons, hm'] at hfind
        simp only [updateFirst, hm', Bool.false_eq_true, if_false, List.find?_cons]
        exact ih hfind

/-- Lemma: `updateFirst` changes the total stored quantity by exactly the change it
makes to the first matching holding. -/
lemma updateFirst_portfolioQuantity (p : List Holding) (symU : String)
    (f : Holding → Holding) (ex : Holding)
    (hfind : p.find? (fun h => h.symbol == symU) = some ex) :
    portfolioQuantity (updateFirst p symU f)
      = portfolioQuantity p - ex.quantity + (f ex).quantity := by
  induction p with
  | nil => simp at hfind
  | cons h rest ih =>
      by_cases hmatch : (h.symbol == symU) = true
      · simp only [List.find?_cons, hmatch] at hfind
        have hex : h = ex := by injection hfind
        subst hex
        simp only [updateFirst, if_pos hmatch, portfolioQuantity, List.map_cons, List.sum_cons]
        ring
      · have hm' : (h.symbol == symU) = false := by simpa using hmatch
        simp only [List.find?_cons, hm'] at hfind
        simp only [updateFirst, if_neg hmatch, portfolioQuantity,
          List.map_cons, List.sum_cons]
        have hrec := ih hfind
        simp only [portfolioQuantity] at hrec
        rw [hrec]; ring

/-- Claim C3, counterexample: The claim "reducing requires
0 < quantity ≤ total held and fails with `InsufficientQuantityError`
otherwise" fails on `removeStockTool`: asking to remove 15 shares from a
10-share AAPL holding succeeds and silently deletes the whole holding, and
asking to remove 0 shares (falsy in JS) likewise deletes the holding instead
of failing. -/
theorem removeStock_over_reduction_counterexample :
    removeStock [⟨"AAPL", 10, 100, none⟩] "AAPL" (some 15) = some [] ∧
    removeStock [⟨"AAPL", 10, 100, none⟩] "AAPL" (some 0) = some [] := by
  constructor <;>
    norm_num [removeStock, removeStockUpper, jsToUpper_AAPL, List.find?, List.filter]

/-- Claim C3, amended: `removeStockTool` never raises an
`InsufficientQuantityError`: whenever the requested quantity is missing,
zero, or at least the stored total, the whole Holding is removed from the
portfolio; a reduction by 0 < quantity < total leaves the Holding with
stored quantity old − reduced (ledger untouched), and the portfolio's total
stored quantity drops by exactly the reduced amount. -/
theorem removeStock_actual_behavior :
    ∀ (p : List Holding) (sym : String) (ex : Holding) (q : ℚ),
      p.find? (fun h => h.symbol == jsToUpper sym) = some ex →
      ((q ≠ 0 → ex.quantity ≤ q →
          removeStock p sym (some q)
            = some (p.filter (fun h => ¬ (h.symbol == jsToUpper sym)))) ∧
       (removeStock p sym none
          = some (p.filter (fun h => ¬ (h.symbol == jsToUpper sym)))) ∧
       (removeStock p sym (some 0)
          = some (p.filter (fun h => ¬ (h.symbol == jsToUpper sym)))) ∧
       (0 < q → q < ex.quantity →
          removeStock p sym (some q)
            = some (updateFirst p (jsToUpper sym)
                (fun h => { h with quantity := h.quantity - q })) ∧
          (updateFirst p (jsToUpper sym)
              (fun h => { h with quantity := h.quantity - q })).find?
              (fun h => h.symbol == jsToUpper sym)
            = some { ex with quantity := ex.quantity - q } ∧
          portfolioQuantity (updateFirst p (jsToUpper sym)
              (fun h => { h with quantity := h.quantity - q }))
            = portfolioQuantity p - q)) := by
  intro p sym ex q hfind
  refine ⟨?_, ?_, ?_, ?_⟩
  · intro hq0 hle
    simp only [removeStock, removeStockUpper, hfind, Option.getD_some]
    rw [if_pos (Or.inr hle)]
  · simp only [removeStock, removeStockUpper, hfind, Option.getD_none]
    simp
  · simp only [removeStock, removeStockUpper, hfind, Option.getD_some]
    simp
  · intro hpos hlt
    have hcond : ¬ (q = 0 ∨ ex.quantity ≤ q) := by
      push_neg
      exact ⟨ne_of_gt hpos, hlt⟩
    refine ⟨?_, ?_, ?_⟩
    · simp only [removeStock, removeStockUpper, hfind, Option.getD_some]
      rw [if_neg hcond]
    · exact updateFirst_find? p (jsToUpper sym) _ ex (fun h => rfl) hfind
    · rw [updateFirst_portfolioQuantity p (jsToUpper sym) _ ex hfind]
      ring

/-- Witness for the amended C3: removing 4 of 10 AAPL shares leaves the
holding with quantity 6 = 10 − 4 and shrinks the portfolio total by 4. -/
theorem removeStock_actual_behavior_witness :
    removeStock [⟨"AAPL", 10, 100, none⟩] "AAPL" (some 4)
        = some (updateFirst [⟨"AAPL", 10, 100, none⟩] (jsToUpper "AAPL")
            (fun h => { h with quantity := h.quantity - 4 })) ∧
    (updateFirst [⟨"AAPL", 10, 100, none⟩] (jsToUpper "AAPL")
        (fun h => { h with quantity := h.quantity - 4 })).find?
        (fun h => h.symbol == jsToUpper "AAPL")
      = some ⟨"AAPL", 10 - 4, 100, none⟩ ∧
    portfolioQuantity (updateFirst [⟨"AAPL", 10, 100, none⟩] (jsToUpper "AAPL")
        (fun h => { h with quantity := h.quantity - 4 }))
      = portfolioQuantity [⟨"AAPL", 10, 100, none⟩] - 4 :=
  (removeStock_actual_behavior [⟨"AAPL", 10, 100, none⟩] "AAPL"
      ⟨"AAPL", 10, 100, none⟩ 4
      (by simp [List.find?, jsToUpper_AAPL])).2.2.2
    (by norm_num) (by norm_num)

/-- Every `addStockUpper` call adds exactly the bought quantity to the
portfolio's total stored quantity, with no sign restriction. -/
lemma addStockUpper_quantity (p : List Holding) (symU : String) (q pr : ℚ) :
    portfolioQuantity (addStockUpper p symU q pr) = portfolioQuantity p + q := by
  induction p with
  | nil =>
      simp [addStockUpper, portfolioQuantity]
  | cons h rest ih =>
      by_cases hmatch : (h.symbol == symU) = true
      · simp only [addStockUpper, if_pos hmatch, portfolioQuantity, List.map_cons,
          List.sum_cons, addLotToHolding]
        ring
      · simp only [addStockUpper, if_neg hmatch, portfolioQuantity, List.map_cons,
          List.sum_cons]
        have hrec := ih
        simp only [portfolioQuantity] at hrec
        rw [hrec]; ring

/-- When the symbol is not yet in the portfolio, `addStockUpper` appends a
fresh holding seeded with a one-lot ledger. -/
lemma addStockUpper_fresh (p : List Holding) (symU : String) (q pr : ℚ)
    (hfresh : ∀ h ∈ p, (h.symbol == symU) = false) :
    addStockUpper p symU q pr = p ++ [⟨symU, q, pr, some [⟨q, pr⟩]⟩] := by
  induction p with
  | nil => rfl
  | cons h rest ih =>
      have hm : (h.symbol == symU) = false := hfresh h (List.mem_cons_self h rest)
      simp only [addStockUpper, hm, Bool.false_eq_true, if_false, List.cons_append]
      rw [ih (fun h' hh' => hfresh h' (List.mem_cons_of_mem h hh'))]

/-- Claim C4, counterexample: The claim "adding a lot requires quantity > 0
and price > 0 and fails with `InvalidQuantityError`/`InvalidPriceError`
otherwise" fails on `addStockTool`: a buy of −5 shares, and a buy at price
−3, are both recorded without any validation. -/
theorem addStock_no_validation_counterexample :
    addStock [] "AAPL" (-5) 100 = [⟨"AAPL", -5, 100, some [⟨-5, 100⟩]⟩] ∧
    addStock [] "AAPL" 5 (-3) = [⟨"AAPL", 5, -3, some [⟨5, -3⟩]⟩] := by
  constructor <;> simp [addStock, addStockUpper, jsToUpper_AAPL]

/-- Claim C4, amended: `addStockTool` performs no validation: for every
quantity and price (positive or not) it appends the lot — a fresh symbol
gets a new holding with a one-lot ledger, a repeat buy appends to the
existing ledger and adds to the stored quantity — and the portfolio's total
stored quantity always changes by exactly the bought quantity; no
`InvalidQuantityError` or `InvalidPriceError` exists. -/
theorem addStock_appends_unconditionally :
    ∀ (p : List Holding) (sym : String) (q pr : ℚ),
      portfolioQuantity (addStock p sym q pr) = portfolioQuantity p + q ∧
      ((∀ h ∈ p, (h.symbol == jsToUpper sym) = false) →
        addStock p sym q pr = p ++ [⟨jsToUpper sym, q, pr, some [⟨q, pr⟩]⟩]) ∧
      (∀ h : Holding, addLotToHolding h q pr
        = ⟨h.symbol, h.quantity + q, h.purchasePrice,
           some ((h.purchases.getD [⟨h.quantity, h.purchasePrice⟩]) ++ [⟨q, pr⟩])⟩) :=
  fun p sym q pr =>
    ⟨addStockUpper_quantity p (jsToUpper sym) q pr,
     fun hfresh => addStockUpper_fresh p (jsToUpper sym) q pr hfresh,
     fun _ => rfl⟩

/-- Witness for the amended C4: a buy of −5 shares of a fresh symbol is
appended and lowers the portfolio quantity by 5. -/
theorem addStock_appends_unconditionally_witness :
    portfolioQuantity (addStock [] "AAPL" (-5) 100) = portfolioQuantity [] + (-5) ∧
    addStock [] "AAPL" (-5) 100 = [] ++ [⟨jsToUpper "AAPL", -5, 100, some [⟨-5, 100⟩]⟩] :=
  ⟨(addStock_appends_unconditionally [] "AAPL" (-5) 100).1,
   (addStock_appends_unconditionally [] "AAPL" (-5) 100).2.1 (by simp)⟩

/-- Folding repeat buys of one symbol over a single-holding portfolio sums
the quantity, appends every lot, and never touches `purchasePrice`. -/
lemma foldl_addStock_single (rest : List (ℚ × ℚ)) (sym : String) (Q P₀ : ℚ)
    (L : List Purchase) :
    rest.foldl (fun port qp => addStock port sym qp.1 qp.2)
        [⟨jsToUpper sym, Q, P₀, some L⟩]
      = [⟨jsToUpper sym, Q + (rest.map Prod.fst).sum, P₀,
         some (L ++ rest.map (fun qp => ⟨qp.1, qp.2⟩))⟩] := by
  induction rest generalizing Q L with
  | nil => simp
  | cons qp rest ih =>
      obtain ⟨q, p⟩ := qp
      simp only [List.foldl_cons]
      have hstep : addStock [⟨jsToUpper sym, Q, P₀, some L⟩] sym q p
          = [⟨jsToUpper sym, Q + q, P₀, some (L ++ [⟨q, p⟩])⟩] := by
        simp [addStock, addStockUpper, addLotToHolding]
      rw [hstep, ih]
      simp [add_assoc]

/-- Claim C10: Buying a symbol repeatedly: starting from the empty portfolio,
the first buy `(q₀, p₀)` followed by any sequence of repeat buys leaves one
holding whose stored `quantity` is the sum of all bought quantities, whose
`purchases` ledger lists every `(quantity, price)` pair in order, and whose
stored `purchasePrice` is still `p₀`, the first recorded purchase's price —
never the latest price nor the weighted average. -/
theorem addStock_repeat_buys_keep_first_purchasePrice :
    ∀ (sym : String) (q₀ p₀ : ℚ) (rest : List (ℚ × ℚ)),
      rest.foldl (fun port qp => addStock port sym qp.1 qp.2) (addStock [] sym q₀ p₀)
        = [⟨jsToUpper sym, q₀ + (rest.map Prod.fst).sum, p₀,
           some (⟨q₀, p₀⟩ :: rest.map (fun qp => ⟨qp.1, qp.2⟩))⟩] := by
  intro sym q₀ p₀ rest
  have h0 : addStock [] sym q₀ p₀ = [⟨jsToUpper sym, q₀, p₀, some [⟨q₀, p₀⟩]⟩] := rfl
  rw [h0, foldl_addStock_single]
  simp

/-- Witness for C10: buying 10 at 271 then 5 at 273 keeps
purchasePrice = 271 while the ledger records both lots. -/
theorem addStock_repeat_buys_witness :
    [((5:ℚ), (273:ℚ))].foldl (fun port qp => addStock port "aapl" qp.1 qp.2)
        (addStock [] "aapl" 10 271)
      = [⟨jsToUpper "aapl", 10 + ([((5:ℚ), (273:ℚ))].map Prod.fst).sum, 271,
         some (⟨10, 271⟩ :: [((5:ℚ), (273:ℚ))].map (fun qp => ⟨qp.1, qp.2⟩))⟩] :=
  addStock_repeat_buys_keep_first_purchasePrice "aapl" 10 271 [(5, 273)]

/-- Claim C5 (code bug): The divisions behind the user-visible percentages are
unguarded: on an empty portfolio (`totalCost == 0`) both aggregate percent
computations are non-finite (JS `0/0 = NaN`, modelled as `none`), a holding
with quantity 0 gets a NaN `profitLossPercent`, and a benchmark comparison
with `costBasis == 0` yields a non-finite return and outperformance — never
the `0` the spec requires. -/
theorem unguarded_percent_divisions_not_zero :
    profitTotalPercent [] = none ∧
    advisorTotalGainPercent [] = none ∧
    (enrichProfit ⟨"AAPL", 0, 100⟩ (some 274)).profitLossPercent = none ∧
    (benchmarkComparison 1050 0 (some "1Y")).portfolioReturn = none ∧
    (benchmarkComparison 1050 0 (some "1Y")).outperformance = none := by
  refine ⟨?_, ?_, ?_, ?_, ?_⟩ <;>
    norm_num [profitTotalPercent, profitTotal, profitTotalValue, profitTotalCost,
      advisorTotalGainPercent, advisorTotalGain, advisorTotalValue, advisorTotalCost,
      enrichProfit, benchmarkComparison, jsDiv]

/-- Claim C6: For every non-empty list of enriched holdings with positive
portfolio total value, `riskScore = min(maxConcentration · 2, 100)` where
`maxConcentration` is attained by some holding's share
`totalValue / portfolioTotal · 100` and bounds every holding's share; a
single-holding portfolio yields `diversificationScore = 20`,
`maxConcentration = 100`, `riskScore = 100` and overall rating
`NEEDS IMPROVEMENT` (the source spells the `NEEDS_IMPROVEMENT` rating with
a space). -/
theorem riskScore_concentration_formula :
    (∀ hs : List AdvisorHolding, hs ≠ [] → 0 < advisorTotalValue hs →
       riskScore hs = min (maxConcentration hs * 2) 100 ∧
       (∃ h ∈ hs, maxConcentration hs = concentrationShare hs h) ∧
       (∀ h ∈ hs, concentrationShare hs h ≤ maxConcentration hs)) ∧
    (∀ h : AdvisorHolding, 0 < h.totalValue →
       diversificationScore [h] = 20 ∧ maxConcentration [h] = 100 ∧
       riskScore [h] = 100 ∧ overallRating [h] = "NEEDS IMPROVEMENT") := by
  constructor
  · intro hs hne hpos
    obtain ⟨m, hm⟩ : ∃ m, (hs.map (concentrationShare hs)).max? = some m := by
      cases hmax : (hs.map (concentrationShare hs)).max? with
      | none =>
          rw [List.max?_eq_none_iff] at hmax
          exact absurd (by simpa using hmax) hne
      | some m => exact ⟨m, rfl⟩
    have hmem := List.max?_mem (fun a b => max_choice a b) hm
    obtain ⟨hw, hhw, hshw⟩ := List.mem_map.mp hmem
    have hle := (List.max?_le_iff (fun a b c => max_le_iff) hm).1 (le_refl m)
    refine ⟨rfl, ⟨hw, hhw, by simp [maxConcentration, hm, hshw]⟩, ?_⟩
    intro h hh
    have hmemmap : concentrationShare hs h ∈ hs.map (concentrationShare hs) :=
      List.mem_map_of_mem _ hh
    simpa [maxConcentration, hm] using hle _ hmemmap
  · intro h hpos
    have htot : advisorTotalValue [h] = h.totalValue := by simp [advisorTotalValue]
    have hshare : concentrationShare [h] h = 100 := by
      simp [concentrationShare, htot, div_self (ne_of_gt hpos)]
    have hmax : maxConcentration [h] = 100 := by
      simp [maxConcentration, List.max?, hshare]
    have hdiv : diversificationScore [h] = 20 := by
      simp [diversificationScore]
      norm_num
    refine ⟨hdiv, hmax, ?_, ?_⟩
    · rw [riskScore, hmax]; norm_num
    · rw [overallRating, riskScore, hmax, hdiv]
      norm_num

/-- Witness for C6: the single enriched AAPL holding of the running example
(total value 4110 > 0). -/
theorem riskScore_concentration_witness :
    (riskScore [enrichAdvisor demoHolding (some 274)]
        = min (maxConcentration [enrichAdvisor demoHolding (some 274)] * 2) 100 ∧
     (∃ h ∈ [enrichAdvisor demoHolding (some 274)],
        maxConcentration [enrichAdvisor demoHolding (some 274)]
          = concentrationShare [enrichAdvisor demoHolding (some 274)] h) ∧
     (∀ h ∈ [enrichAdvisor demoHolding (some 274)],
        concentrationShare [enrichAdvisor demoHolding (some 274)] h
          ≤ maxConcentration [enrichAdvisor demoHolding (some 274)])) ∧
    (diversificationScore [enrichAdvisor demoHolding (some 274)] = 20 ∧
     maxConcentration [enrichAdvisor demoHolding (some 274)] = 100 ∧
     riskScore [enrichAdvisor demoHolding (some 274)] = 100 ∧
     overallRating [enrichAdvisor demoHolding (some 274)] = "NEEDS IMPROVEMENT") :=
  ⟨riskScore_concentration_formula.1 [enrichAdvisor demoHolding (some 274)]
      (List.cons_ne_nil _ _)
      (by norm_num [advisorTotalValue, enrichAdvisor, demoHolding]),
   riskScore_concentration_formula.2 (enrichAdvisor demoHolding (some 274))
      (by norm_num [enrichAdvisor, demoHolding])⟩

/-- A left fold of `max` stays below a bound iff the seed and every element
do — the shape of the `maxDeviation` accumulation loop. -/
lemma foldl_max_lt_iff (l : List ℚ) (a c : ℚ) :
    l.foldl max a < c ↔ a < c ∧ ∀ x ∈ l, x < c := by
  induction l generalizing a with
  | nil => simp
  | cons x l ih =>
      simp only [List.foldl_cons, ih, max_lt_iff, List.mem_cons]
      constructor
      · rintro ⟨⟨hac, hxc⟩, hall⟩
        exact ⟨hac, fun y hy => hy.elim (fun h => h ▸ hxc) (hall y)⟩
      · rintro ⟨hac, hall⟩
        exact ⟨⟨hac, hall x (Or.inl rfl)⟩, fun y hy => hall y (Or.inr hy)⟩

/-- Claim C7: The rebalancing planner reports `isBalanced` exactly when every
holding's deviation from its target allocation is below 10 percentage
points, emits a suggestion for a holding iff its deviation exceeds 10, with
`REDUCE` shares `⌊(totalValue − portfolioTotal·target%/100)/currentPrice⌋`
when overweight and `INCREASE` shares
`⌈(portfolioTotal·target%/100 − totalValue)/currentPrice⌉` otherwise; a
single-holding portfolio (default equal-weight target) has deviation 0, no
suggestions, and is balanced. -/
theorem rebalancing_threshold_and_share_formulas :
    (∀ (p : List RebalHolding) (tgt : List (String × ℚ)),
       ((isBalanced p tgt = true) ↔ maxDeviation p tgt < 10) ∧
       (maxDeviation p tgt < 10 ↔ ∀ h ∈ p, deviationOf p tgt h < 10) ∧
       (∀ h, (suggestionFor p tgt h).isSome = true ↔ 10 < deviationOf p tgt h) ∧
       (∀ h, 10 < deviationOf p tgt h →
          (targetFor tgt h.symbol (equalWeight p) < currentShare p h →
            suggestionFor p tgt h = some ⟨"REDUCE", h.symbol,
              ⌊(h.totalValue
                  - rebalTotalValue p * targetFor tgt h.symbol (equalWeight p) / 100)
                / h.currentPrice⌋⟩) ∧
          (¬ targetFor tgt h.symbol (equalWeight p) < currentShare p h →
            suggestionFor p tgt h = some ⟨"INCREASE", h.symbol,
              ⌈(rebalTotalValue p * targetFor tgt h.symbol (equalWeight p) / 100
                  - h.totalValue)
                / h.currentPrice⌉⟩))) ∧
    (∀ h : RebalHolding, 0 < h.totalValue →
       deviationOf [h] [] h = 0 ∧ rebalSuggestions [h] [] = [] ∧
       isBalanced [h] [] = true) := by
  constructor
  · intro p tgt
    refine ⟨by simp [isBalanced], ?_, ?_, ?_⟩
    · rw [maxDeviation, foldl_max_lt_iff]
      constructor
      · rintro ⟨-, hall⟩ h hh
        exact hall _ (List.mem_map_of_mem _ hh)
      · intro hall
        refine ⟨by norm_num, ?_⟩
        intro x hx
        obtain ⟨h, hh, rfl⟩ := List.mem_map.mp hx
        exact hall h hh
    · intro h
      simp only [suggestionFor, deviationOf]
      by_cases hdev :
          (10:ℚ) < |currentShare p h - targetFor tgt h.symbol (equalWeight p)|
      · rw [if_pos hdev]
        exact iff_of_true (by split <;> rfl) hdev
      · rw [if_neg hdev]
        simp [hdev]
    · intro h hdev
      simp only [deviationOf] at hdev
      constructor
      · intro hover
        simp only [suggestionFor]
        rw [if_pos hdev, if_pos hover]
      · intro hover
        simp only [suggestionFor]
        rw [if_pos hdev, if_neg hover]
  · intro h hpos
    have hew : equalWeight [h] = 100 := by simp [equalWeight]
    have hshare : currentShare [h] h = 100 := by
      simp [currentShare, rebalTotalValue, div_self (ne_of_gt hpos)]
    have hdev : deviationOf [h] [] h = 0 := by
      simp [deviationOf, targetFor, hew, hshare]
    have hnone : suggestionFor [h] [] h = none := by
      rw [suggestionFor]
      norm_num [hshare, hew, targetFor]
    refine ⟨hdev, ?_, ?_⟩
    · simp [rebalSuggestions, hnone]
    · norm_num [isBalanced, maxDeviation, hdev]

/-- Witness for C7: the single-holding portfolio AAPL (15 shares at 274,
total value 4110). -/
theorem rebalancing_single_holding_witness :
    deviationOf [⟨"AAPL", 15, 274, 4110⟩] [] ⟨"AAPL", 15, 274, 4110⟩ = 0 ∧
    rebalSuggestions [⟨"AAPL", 15, 274, 4110⟩] [] = [] ∧
    isBalanced [⟨"AAPL", 15, 274, 4110⟩] [] = true :=
  rebalancing_threshold_and_share_formulas.2 ⟨"AAPL", 15, 274, 4110⟩ (by norm_num)

/-- Claim C8: An alert with an available quote (price > 0) is classified as
triggered iff `condition = below ∧ price < target` or
`condition = above ∧ price > target` — strict inequalities, so a price
exactly at the target never triggers — and an alert whose quote is
unavailable (fetch failure or `price ≤ 0`) receives no verdict; the
triggered list keeps exactly the alerts whose verdict is `some true`, in
input order. -/
theorem alert_strict_inequality_trigger :
    (∀ (a : Alert) (c : ℚ), 0 < c →
       (alertVerdict a (some c) = some true ↔
         ((a.condition = AlertCondition.below ∧ c < a.targetPrice) ∨
          (a.condition = AlertCondition.above ∧ a.targetPrice < c)))) ∧
    (∀ a : Alert, alertVerdict a (some a.targetPrice) ≠ some true) ∧
    (∀ (a : Alert) (c : ℚ), c ≤ 0 → alertVerdict a (some c) = none) ∧
    (∀ a : Alert, alertVerdict a none = none) ∧
    (∀ (alerts : List Alert) (price : String → Option ℚ) (a : Alert),
       a ∈ triggeredAlerts alerts price ↔
         a ∈ alerts ∧ alertVerdict a (price a.symbol) = some true) := by
  refine ⟨?_, ?_, ?_, ?_, ?_⟩
  · intro a c hc
    simp [alertVerdict, hc, alertTriggered]
  · intro a
    by_cases ht : 0 < a.targetPrice
    · simp [alertVerdict, ht, alertTriggered]
    · simp [alertVerdict, ht]
  · intro a c hc
    simp [alertVerdict, not_lt.mpr hc]
  · intro a
    rfl
  · intro alerts price a
    cases hv : alertVerdict a (price a.symbol) with
    | none => simp [triggeredAlerts, List.mem_filter, hv]
    | some b => cases b <;> simp [triggeredAlerts, List.mem_filter, hv]

/-- Witness for C8: the spec's boundary alert (below 160) does not trigger
at a price of exactly 160, and does trigger at 155. -/
theorem alert_boundary_witness :
    alertVerdict ⟨"AAPL", AlertCondition.below, 160⟩ (some 160) ≠ some true ∧
    (alertVerdict ⟨"AAPL", AlertCondition.below, 160⟩ (some 155) = some true ↔
      ((AlertCondition.below = AlertCondition.below ∧ (155:ℚ) < 160) ∨
       (AlertCondition.below = AlertCondition.above ∧ (160:ℚ) < 155))) :=
  ⟨alert_strict_inequality_trigger.2.1 ⟨"AAPL", AlertCondition.below, 160⟩,
   alert_strict_inequality_trigger.1 ⟨"AAPL", AlertCondition.below, 160⟩ 155
     (by norm_num)⟩

/-- Claim C9: The benchmark reference return comes from the fixed table
`{1M: 2.1, 3M: 5.5, 6M: 8.2, 1Y: 10.5, YTD: 12.3}`, any unknown period
token falls back to the 1Y entry 10.5, and
`outperformance = portfolioReturn − referenceReturn`; on
`portfolioValue = 1050, costBasis = 1000, timePeriod = "1Y"` the result is
`portfolioReturn = 5.0`, `sp500Return = 10.5`, `outperformance = −5.5`. -/
theorem benchmark_fixed_table_and_fallback :
    (sp500Return "1M" = 21/10 ∧ sp500Return "3M" = 11/2 ∧
     sp500Return "6M" = 41/5 ∧ sp500Return "1Y" = 21/2 ∧
     sp500Return "YTD" = 123/10) ∧
    (∀ p : String, p ≠ "1M" → p ≠ "3M" → p ≠ "6M" → p ≠ "1Y" → p ≠ "YTD" →
       sp500Return p = 21/2) ∧
    (∀ (v c : ℚ) (t : Option String), c ≠ 0 →
       (benchmarkComparison v c t).portfolioReturn = some ((v - c) / c * 100) ∧
       (benchmarkComparison v c t).outperformance
         = some ((v - c) / c * 100 - sp500Return (t.getD "1Y"))) ∧
    ((benchmarkComparison 1050 1000 (some "1Y")).portfolioReturn = some 5 ∧
     (benchmarkComparison 1050 1000 (some "1Y")).sp500Return = 21/2 ∧
     (benchmarkComparison 1050 1000 (some "1Y")).outperformance = some (-(11/2))) := by
  refine ⟨⟨?_, ?_, ?_, ?_, ?_⟩, ?_, ?_, ⟨?_, ?_, ?_⟩⟩
  · simp [sp500Return]
  · simp [sp500Return]
  · simp [sp500Return]
  · simp [sp500Return]
  · simp [sp500Return]
  · intro p h1 h2 h3 h4 h5
    simp [sp500Return, h1, h2, h3, h4, h5]
  · intro v c t hc
    constructor <;> simp [benchmarkComparison, jsDiv, hc]
  · norm_num [benchmarkComparison, jsDiv]
  · simp [benchmarkComparison, sp500Return]
  · simp [benchmarkComparison, jsDiv, sp500Return]
    norm_num

/-- Witness for C9: the unknown token "2Y" falls back to the 1Y entry, and
the general return formula applied at (1050, 1000, "1Y"). -/
theorem benchmark_fallback_witness :
    sp500Return "2Y" = 21/2 ∧
    ((benchmarkComparison 1050 1000 (some "1Y")).portfolioReturn
        = some (((1050:ℚ) - 1000) / 1000 * 100) ∧
     (benchmarkComparison 1050 1000 (some "1Y")).outperformance
        = some (((1050:ℚ) - 1000) / 1000 * 100
            - sp500Return ((some "1Y").getD "1Y"))) :=
  ⟨benchmark_fixed_table_and_fallback.2.1 "2Y" (by decide) (by decide) (by decide)
      (by decide) (by decide),
   benchmark_fixed_table_and_fallback.2.2.1 1050 1000 (some "1Y") (by norm_num)⟩

end Engine

